import Mathlib

/-!
Shallow embedding of the order-lifecycle and authorization core of the
e-commerce backend (Express/Mongoose).  Identifiers are modelled as
naturals, monetary values as exact rationals, Mongo documents as Lean
structures and the document store as lists of documents.  Handlers become
pure functions `State → Except ApiError State` (an error response leaves
the state untouched, which matches the handlers: every rejection happens
before the first write of the corresponding code path).  Request
validation that concerns claim-irrelevant fields (addresses, payment
method strings, date formats) is omitted; the item checks that the claims
quantify over are kept bit by bit.
-/

namespace Ecommerce

abbrev UserId := Nat
abbrev ProductId := Nat
abbrev OrderId := Nat

/-- roles of `User.role` (models/User.js enum). -/
inductive Role
  | admin
  | seller
  | customer
  | delivery
deriving DecidableEq, Repr

/-- order statuses (models/Order.js `status` enum). -/
inductive OrderStatus
  | pending
  | confirmed
  | shipped
  | delivered
  | cancelled
deriving DecidableEq, Repr

/-- user document: only the fields the modelled handlers read. -/
structure User where
  id : UserId
  role : Role
  isActive : Bool
  lastLogin : Option Nat
deriving DecidableEq, Repr

/-- product document (models/Product.js): claim-relevant fields.
`stock` and `sales` are integers because the `$inc` update path of
`findByIdAndUpdate` performs no bound check (Mongoose update validators
are off by default), so negative values are representable. -/
structure Product where
  id : ProductId
  seller : UserId
  price : ℚ
  stock : ℤ
  sales : ℤ
  isActive : Bool
deriving DecidableEq, Repr

/-- one order line item (models/Order.js `orderItemSchema`). -/
structure OrderItem where
  product : ProductId
  quantity : Nat
  price : ℚ
  total : ℚ
deriving DecidableEq, Repr

/-- order document (models/Order.js): claim-relevant fields.
`deliveryAgent` is the nested `delivery.deliveryAgent` reference. -/
structure Order where
  id : OrderId
  customer : UserId
  items : List OrderItem
  status : OrderStatus
  subtotal : ℚ
  tax : ℚ
  shippingCost : ℚ
  total : ℚ
  deliveryAgent : Option UserId
  isActive : Bool
deriving DecidableEq, Repr

/-- the document store. -/
structure State where
  users : List User
  products : List Product
  orders : List Order
deriving Repr

/-- error taxonomy of the route handlers, by HTTP status and message:
401 → `unauthorized`, 403 → `forbidden`, 404 → `notFound`, 400 with
express-validator details → `validationFailed`, and the distinct 400
business-rule messages of the order routes get their own constructors. -/
inductive ApiError
  | unauthorized
  | forbidden
  | notFound
  | validationFailed
  | productNotFound (pid : ProductId)
  | productNotAvailable (pid : ProductId)
  | insufficientStock (pid : ProductId)
  | onlyPendingCancellable
deriving DecidableEq, Repr

/-- `Order.findById` — `find?` over the order collection. -/
def findOrder (s : State) (oid : OrderId) : Option Order :=
  s.orders.find? (fun o => o.id == oid)

/-- `Product.findById`. -/
def findProduct (s : State) (pid : ProductId) : Option Product :=
  s.products.find? (fun p => p.id == pid)

/-- `User.findById`. -/
def findUser (s : State) (uid : UserId) : Option User :=
  s.users.find? (fun u => u.id == uid)

/-- the outcome of `jwt.verify` on a presented bearer token: `none`
stands for any malformed / expired / wrongly signed token (the external
library call raises, which the middleware turns into a 401). -/
structure Token where
  decoded : Option UserId
deriving DecidableEq, Repr

/-- middleware/auth.js `protect`: missing header → 401; failed verify →
401; decoded id resolving to no user → 401; deactivated user → 401;
otherwise update `lastLogin` (to `now`), persist it and attach the user. -/
def protect (header : Option Token) (now : Nat) (s : State) :
    Except ApiError (User × State) :=
  match header with
  | none => .error .unauthorized
  | some t =>
    match t.decoded with
    | none => .error .unauthorized
    | some uid =>
      match findUser s uid with
      | none => .error .unauthorized
      | some u =>
        if u.isActive then
          let u2 : User := { u with lastLogin := some now }
          .ok (u2, { s with users := s.users.map (fun v => if v.id == u.id then u2 else v) })
        else .error .unauthorized

/-- roleCheck.js `canManageOrders`: admin, seller or delivery. -/
def canManageOrders (r : Role) : Bool :=
  r == .admin || r == .seller || r == .delivery

/-- the seller branch of `checkOrderAccess`: `Product.find` over the ids
of the order's items restricted to this seller is non-empty. -/
def sellerHasProductInOrder (s : State) (sellerId : UserId) (o : Order) : Bool :=
  o.items.any (fun it =>
    match findProduct s it.product with
    | some p => p.seller == sellerId
    | none => false)

/-- the disjunction of the four grant branches of `checkOrderAccess`. -/
def orderAccessGranted (s : State) (u : User) (o : Order) : Bool :=
  u.role == .admin ||
  (u.role == .seller && sellerHasProductInOrder s u.id o) ||
  (u.role == .customer && o.customer == u.id) ||
  (u.role == .delivery && o.deliveryAgent == some u.id)

/-- roleCheck.js `checkOrderAccess`: absent order → 404; admin, a seller
with at least one product in the order, the owning customer, or the
assigned delivery agent → grant; anyone else → 403. -/
def checkOrderAccess (s : State) (u : User) (oid : OrderId) :
    Except ApiError Order :=
  match findOrder s oid with
  | none => .error .notFound
  | some o =>
    if orderAccessGranted s u o then .ok o else .error .forbidden

/-- Order.js second pre-save hook, the reduce over the items. -/
def sumItemTotals (items : List OrderItem) : ℚ :=
  items.foldl (fun acc it => acc + it.total) 0

/-- Order.js `pre('save')` totals hook: when the item list is non-empty,
recompute `subtotal` as the sum of the line totals and `total` as
`subtotal + tax + shippingCost`.  (The order-number hook is not modelled;
no claim mentions order numbers.) -/
def applyTotalsHook (o : Order) : Order :=
  if o.items.isEmpty then o
  else
    let st := sumItemTotals o.items
    { o with subtotal := st, total := st + o.tax + o.shippingCost }

/-- `order.save()` on an order already in the store: run the pre-save
hook, then replace the document with the same id. -/
def saveOrder (s : State) (o : Order) : State :=
  let o2 := applyTotalsHook o
  { s with orders := s.orders.map (fun q => if q.id == o2.id then o2 else q) }

/-- `order.save()` on a freshly constructed order: run the hook and
append the document to the collection. -/
def saveNewOrder (s : State) (o : Order) : State :=
  let o2 := applyTotalsHook o
  { s with orders := s.orders ++ [o2] }

/-- Product.js `updateSales`: `sales += quantity` and
`stock = Math.max(0, stock - quantity)`. -/
def Product.updateSales (p : Product) (quantity : Nat) : Product :=
  { p with sales := p.sales + quantity, stock := max 0 (p.stock - quantity) }

/-- seller branch of PATCH /api/orders/:id/status: the requested target
must lie in `['pending', 'confirmed']`; the current status is not read. -/
def sellerTargetAllowed (t : OrderStatus) : Bool :=
  t == .pending || t == .confirmed

/-- delivery branch of PATCH /api/orders/:id/status: the requested target
must lie in `['confirmed', 'shipped', 'delivered']`. -/
def deliveryTargetAllowed (t : OrderStatus) : Bool :=
  t == .confirmed || t == .shipped || t == .delivered

/-- the document written by PATCH /api/orders/:id/status once the guards
pass: `order.status = status`, plus
`order.delivery.deliveryAgent = req.user._id` when a delivery agent sets
`shipped`. -/
def statusWriteDoc (u : User) (o : Order) (t : OrderStatus) : Order :=
  let o2 : Order := { o with status := t }
  if t == .shipped && u.role == .delivery
  then { o2 with deliveryAgent := some u.id } else o2

/-- PATCH /api/orders/:id/status (orderRoutes.js): `protect` is assumed
done (the caller `u` is the resolved user); then `canManageOrders`,
`checkOrderAccess`, the per-role target allow-lists, the status write,
the delivery-agent assignment on `shipped` by a delivery agent, and
`order.save()`. -/
def updateOrderStatus (s : State) (u : User) (oid : OrderId) (t : OrderStatus) :
    Except ApiError State :=
  if !canManageOrders u.role then .error .forbidden
  else
    match checkOrderAccess s u oid with
    | .error e => .error e
    | .ok o =>
      if u.role == .seller && !sellerTargetAllowed t then .error .forbidden
      else if u.role == .delivery && !deliveryTargetAllowed t then .error .forbidden
      else .ok (saveOrder s (statusWriteDoc u o t))

/-- one requested line item of POST /api/orders (`req.body.items[i]`). -/
structure ReqItem where
  product : ProductId
  quantity : Nat
deriving DecidableEq, Repr

/-- the express-validator rules on `items`: a non-empty array whose
quantities are integers ≥ 1. -/
def validateItems (items : List ReqItem) : Bool :=
  !items.isEmpty && items.all (fun it => decide (1 ≤ it.quantity))

/-- the check-and-snapshot loop of POST /api/orders: for each item load
the product from the (unchanged) store, reject on missing / inactive /
`stock < quantity`, otherwise snapshot the price, push the order item and
accumulate the subtotal. -/
def buildOrderItems (s : State) : List ReqItem → Except ApiError (List OrderItem × ℚ)
  | [] => .ok ([], 0)
  | it :: rest =>
    match findProduct s it.product with
    | none => .error (.productNotFound it.product)
    | some p =>
      if !p.isActive then .error (.productNotAvailable it.product)
      else if p.stock < (it.quantity : ℤ) then .error (.insufficientStock it.product)
      else
        match buildOrderItems s rest with
        | .error e => .error e
        | .ok (ois, sub) =>
          let itemTotal := p.price * (it.quantity : ℚ)
          .ok ({ product := p.id, quantity := it.quantity,
                 price := p.price, total := itemTotal } :: ois,
               itemTotal + sub)

/-- the `$inc { stock: -quantity, sales: quantity }` applied to one
product document by the post-save loop of POST /api/orders.  The
decrement is unguarded: no clamp, no re-check. -/
def orderDecStep (p : Product) (q : Nat) : Product :=
  { p with stock := p.stock - q, sales := p.sales + q }

/-- the stock-update loop of POST /api/orders:
`Product.findByIdAndUpdate(item.product, { $inc: ... })` in request order. -/
def applyOrderDecrements : State → List ReqItem → State
  | s, [] => s
  | s, it :: rest =>
    let step : Product → Product :=
      fun p => if p.id == it.product then orderDecStep p it.quantity else p
    applyOrderDecrements { s with products := s.products.map step } rest

/-- the order document POST /api/orders constructs after the check loop:
tax is 8% of the subtotal, shipping is free strictly over 50 and the 5.99
flat fee otherwise, total is their sum; status starts `pending`. -/
def newOrderDoc (u : User) (ois : List OrderItem) (subtotal : ℚ) (newId : OrderId) :
    Order :=
  let tax := subtotal * (8 / 100)
  let shippingCost : ℚ := if 50 < subtotal then 0 else 599 / 100
  let total := subtotal + tax + shippingCost
  { id := newId, customer := u.id, items := ois, status := .pending,
    subtotal := subtotal, tax := tax, shippingCost := shippingCost,
    total := total, deliveryAgent := none, isActive := true }

/-- POST /api/orders (orderRoutes.js): `requireCustomer`, validation,
the check loop, the totals, `order.save()` (which runs the totals hook)
and the stock-update loop.  `newId` stands for the fresh document id
Mongo assigns. -/
def createOrder (s : State) (u : User) (req : List ReqItem) (newId : OrderId) :
    Except ApiError State :=
  if u.role != .customer then .error .forbidden
  else if !validateItems req then .error .validationFailed
  else
    match buildOrderItems s req with
    | .error e => .error e
    | .ok (ois, subtotal) =>
      .ok (applyOrderDecrements (saveNewOrder s (newOrderDoc u ois subtotal newId)) req)

/-- the `$inc { stock: quantity, sales: -quantity }` applied to one
product document by the restore loop of DELETE /api/orders/:id. -/
def cancelRestoreStep (p : Product) (q : Nat) : Product :=
  { p with stock := p.stock + q, sales := p.sales - q }

/-- the restore loop of DELETE /api/orders/:id, over the order's items. -/
def applyCancelRestores : State → List OrderItem → State
  | s, [] => s
  | s, it :: rest =>
    let step : Product → Product :=
      fun p => if p.id == it.product then cancelRestoreStep p it.quantity else p
    applyCancelRestores { s with products := s.products.map step } rest

/-- DELETE /api/orders/:id (orderRoutes.js): `checkOrderAccess`, the
pending-only guard (400 otherwise), the status write to `cancelled`,
`order.save()` and the restore loop. -/
def cancelOrder (s : State) (u : User) (oid : OrderId) : Except ApiError State :=
  match checkOrderAccess s u oid with
  | .error e => .error e
  | .ok o =>
    if o.status != .pending then .error .onlyPendingCancellable
    else .ok (applyCancelRestores (saveOrder s { o with status := .cancelled }) o.items)

/-- a PUT /api/orders/:id request body restricted to the modelled order
fields; `none` means the field is absent from `req.body`. -/
structure OrderPatch where
  items : Option (List OrderItem)
  subtotal : Option ℚ
  tax : Option ℚ
  shippingCost : Option ℚ
  total : Option ℚ
  status : Option OrderStatus
deriving Repr

/-- the `$set` semantics of `findByIdAndUpdate(id, req.body)`: present
fields overwrite, absent fields stay.  Crucially, no pre-save hook runs
on this path. -/
def applyPatch (p : OrderPatch) (o : Order) : Order :=
  { o with
    items := p.items.getD o.items,
    subtotal := p.subtotal.getD o.subtotal,
    tax := p.tax.getD o.tax,
    shippingCost := p.shippingCost.getD o.shippingCost,
    total := p.total.getD o.total,
    status := p.status.getD o.status }

/-- PUT /api/orders/:id (orderRoutes.js): `checkOrderAccess`, the
admin-only guard, then `Order.findByIdAndUpdate(req.params.id, req.body)`
— a direct document update that bypasses the totals hook. -/
def adminUpdateOrder (s : State) (u : User) (oid : OrderId) (patch : OrderPatch) :
    Except ApiError State :=
  match checkOrderAccess s u oid with
  | .error e => .error e
  | .ok _ =>
    if u.role != .admin then .error .forbidden
    else .ok { s with orders := s.orders.map (fun q => if q.id == oid then applyPatch patch q else q) }

/-- the role-based filter of GET /api/orders: active orders, scoped per
role (customer → own, seller → at least one own product among the items,
delivery → assigned, admin → all). -/
def orderVisibleTo (s : State) (u : User) (o : Order) : Bool :=
  match u.role with
  | .customer => o.customer == u.id
  | .seller => o.items.any (fun it =>
      s.products.any (fun p => p.id == it.product && p.seller == u.id))
  | .delivery => o.deliveryAgent == some u.id
  | .admin => true

/-- GET /api/orders (orderRoutes.js): the full filtered list, before
pagination.  The optional `status` query narrows by status. -/
def getOrders (s : State) (u : User) (statusFilter : Option OrderStatus) : List Order :=
  s.orders.filter (fun o =>
    o.isActive && orderVisibleTo s u o &&
    (match statusFilter with
     | none => true
     | some st => o.status == st))

/-- the `skip`/`limit` pagination applied by the listing routes.  The
configurable sort merely permutes the filtered list and is not modelled;
it does not affect which orders can appear. -/
def paginate (page limit : Nat) (l : List Order) : List Order :=
  (l.drop ((page - 1) * limit)).take limit

/-- GET /api/orders with pagination. -/
def getOrdersPage (s : State) (u : User) (statusFilter : Option OrderStatus)
    (page limit : Nat) : List Order :=
  paginate page limit (getOrders s u statusFilter)

/-- GET /api/seller/orders (sellerRoutes.js): `requireSeller`, then the
filter `items.product ∈ (own product ids)` and `isActive`, with the
optional status narrowing, before pagination. -/
def getSellerOrders (s : State) (u : User) (statusFilter : Option OrderStatus) :
    Except ApiError (List Order) :=
  if u.role != .seller then .error .forbidden
  else .ok (s.orders.filter (fun o =>
    o.isActive &&
    o.items.any (fun it =>
      s.products.any (fun p => p.id == it.product && p.seller == u.id)) &&
    (match statusFilter with
     | none => true
     | some st => o.status == st)))

/-- GET /api/delivery/orders/:id (deliveryRoutes.js): `requireDelivery`,
then `Order.findOne({ _id, 'delivery.deliveryAgent': user })`; a miss —
absent order or order not assigned to the caller — is one and the same
404. -/
def deliveryGetOrder (s : State) (u : User) (oid : OrderId) :
    Except ApiError Order :=
  if u.role != .delivery then .error .forbidden
  else
    match s.orders.find? (fun o => o.id == oid && o.deliveryAgent == some u.id) with
    | none => .error .notFound
    | some o => .ok o

/-- PATCH /api/delivery/orders/:id/status (deliveryRoutes.js):
`requireDelivery`, target validated to `['confirmed','shipped','delivered']`
(a 400, not a 403), `findOne` scoped to the assigned agent (404 on miss),
the status write and `order.save()`.  The current status is never read.
(The `estimatedDelivery`/`actualDelivery` dates and notes are not
modelled; no claim mentions them.) -/
def deliveryUpdateStatus (s : State) (u : User) (oid : OrderId) (t : OrderStatus) :
    Except ApiError State :=
  if u.role != .delivery then .error .forbidden
  else if !deliveryTargetAllowed t then .error .validationFailed
  else
    match s.orders.find? (fun o => o.id == oid && o.deliveryAgent == some u.id) with
    | none => .error .notFound
    | some o => .ok (saveOrder s { o with status := t })

/-- Modelled from the spec: the role-gated transition table of section
4.3 as the claim reads it — seller only `pending → confirmed`, delivery
`confirmed → shipped`, `shipped → delivered` and `confirmed` also
settable, admin anything, customer nothing.  This is the comparison
definition for the refinement claim about the status route; the code's
own restriction lives in `updateOrderStatus`. -/
def specAllowedTransition (r : Role) (f t : OrderStatus) : Bool :=
  match r with
  | .admin => true
  | .customer => false
  | .seller => f == .pending && t == .confirmed
  | .delivery =>
      (f == .confirmed && t == .shipped) ||
      (f == .shipped && t == .delivered) ||
      t == .confirmed

/-- Modelled from the spec: `round(x, 2)` — round half up to two decimal
places, the rounding the total-computation claim asserts for the tax. -/
def specRound2 (x : ℚ) : ℚ :=
  ((⌊x * 100 + 1 / 2⌋ : ℤ) : ℚ) / 100

/-- total requested quantity of a given product over a request. -/
def reqQty : List ReqItem → ProductId → ℤ
  | [], _ => 0
  | it :: rest, pid =>
      (if it.product = pid then (it.quantity : ℤ) else 0) + reqQty rest pid

/-- total quantity of a given product over an order's items. -/
def itemQty : List OrderItem → ProductId → ℤ
  | [], _ => 0
  | it :: rest, pid =>
      (if it.product = pid then (it.quantity : ℤ) else 0) + itemQty rest pid

/-- projection: did the handler succeed? -/
def isOk {α : Type} (r : Except ApiError α) : Bool :=
  match r with
  | .ok _ => true
  | .error _ => false

/-- projection: the status of order `oid` in the result state. -/
def resultOrderStatus (r : Except ApiError State) (oid : OrderId) : Option OrderStatus :=
  match r with
  | .ok s => (findOrder s oid).map Order.status
  | .error _ => none

/-- projection: the subtotal of order `oid` in the result state. -/
def resultOrderSubtotal (r : Except ApiError State) (oid : OrderId) : Option ℚ :=
  match r with
  | .ok s => (findOrder s oid).map Order.subtotal
  | .error _ => none

/-- projection: the tax of order `oid` in the result state. -/
def resultOrderTax (r : Except ApiError State) (oid : OrderId) : Option ℚ :=
  match r with
  | .ok s => (findOrder s oid).map Order.tax
  | .error _ => none

/-- projection: the stock of product `pid` in the result state. -/
def resultStock (r : Except ApiError State) (pid : ProductId) : Option ℤ :=
  match r with
  | .ok s => (findProduct s pid).map Product.stock
  | .error _ => none

/-- projection: the sales counter of product `pid` in the result state. -/
def resultSales (r : Except ApiError State) (pid : ProductId) : Option ℤ :=
  match r with
  | .ok s => (findProduct s pid).map Product.sales
  | .error _ => none

/-! ### Concrete demonstration data -/

/-- an admin user. -/
def demoAdmin : User := ⟨1, .admin, true, none⟩

/-- a seller user, owner of `demoProduct`. -/
def demoSeller : User := ⟨2, .seller, true, none⟩

/-- a customer user, owner of `demoOrder`. -/
def demoCustomer : User := ⟨3, .customer, true, none⟩

/-- a second customer, not the owner of `demoOrder`. -/
def demoOtherCustomer : User := ⟨4, .customer, true, none⟩

/-- a delivery agent. -/
def demoAgent : User := ⟨5, .delivery, true, none⟩

/-- product 10, sold by user 2, price 30, stock 10, sales 0, active. -/
def demoProduct : Product := ⟨10, 2, 30, 10, 0, true⟩

/-- a pending order of customer 3 over one unit of product 10. -/
def demoOrder : Order :=
  ⟨100, 3, [⟨10, 1, 30, 30⟩], .pending, 30, 0, 0, 30, none, true⟩

/-- a store holding the demo users, `demoProduct` and `demoOrder`. -/
def demoState : State :=
  ⟨[demoAdmin, demoSeller, demoCustomer, demoOtherCustomer, demoAgent],
   [demoProduct], [demoOrder]⟩

/-- a confirmed order of customer 3 over one unit of product 10
(for exercising transitions out of `confirmed`). -/
def confirmedOrder : Order :=
  ⟨100, 3, [⟨10, 1, 30, 30⟩], .confirmed, 30, 0, 0, 30, none, true⟩

/-- the demo store with `confirmedOrder` in place of the pending order. -/
def confirmedState : State :=
  ⟨[demoAdmin, demoSeller, demoCustomer, demoOtherCustomer, demoAgent],
   [demoProduct], [confirmedOrder]⟩

/-- the target-status restriction PATCH /api/orders/:id/status actually
enforces, per caller role: it is a function of the requested target
alone — the order's current status never enters. -/
def codeTargetAllowed (r : Role) (t : OrderStatus) : Bool :=
  match r with
  | .admin => true
  | .seller => sellerTargetAllowed t
  | .delivery => deliveryTargetAllowed t
  | .customer => false

/-- the financial invariant the spec asserts for persisted orders:
`subtotal` is the sum of the line totals and
`total = subtotal + tax + shippingCost`. -/
def orderTotalsInv (o : Order) : Bool :=
  o.subtotal == sumItemTotals o.items && o.total == o.subtotal + o.tax + o.shippingCost

/-- projection: whether order `oid` in the result state satisfies the
financial invariant. -/
def resultOrderTotalsInv (r : Except ApiError State) (oid : OrderId) : Option Bool :=
  match r with
  | .ok s => (findOrder s oid).map orderTotalsInv
  | .error _ => none

/-- an admin PUT body setting only `subtotal` (to 999). -/
def badPatch : OrderPatch := ⟨none, some 999, none, none, none, none⟩

/-- a store whose single product (id 10, seller 2) has stock 5. -/
def dupState : State := ⟨[demoCustomer], [⟨10, 2, 30, 5, 0, true⟩], []⟩

/-- a store whose single product (id 11) costs 10.01, for exercising the
tax computation on a subtotal whose 8% has four decimal places. -/
def pennyState : State := ⟨[demoCustomer], [⟨11, 2, 1001 / 100, 5, 0, true⟩], []⟩

/-- projection: the shipping cost of order `oid` in the result state. -/
def resultOrderShipping (r : Except ApiError State) (oid : OrderId) : Option ℚ :=
  match r with
  | .ok s => (findOrder s oid).map Order.shippingCost
  | .error _ => none

/-- projection: the grand total of order `oid` in the result state. -/
def resultOrderTotal (r : Except ApiError State) (oid : OrderId) : Option ℚ :=
  match r with
  | .ok s => (findOrder s oid).map Order.total
  | .error _ => none

/-- the state of a successful handler result (with a fallback default,
never used on success paths). -/
def okState (r : Except ApiError State) (dflt : State) : State :=
  match r with
  | .ok s => s
  | .error _ => dflt

/-! ### Helper lemmas about the store and the loops -/

/-- `find?` at an id commutes with mapping an id-preserving function. -/
theorem find?_map_idkeep {α : Type} (idf : α → Nat) (m : α → α)
    (hm : ∀ a, idf (m a) = idf a) (k : Nat) :
    ∀ l : List α,
      (l.map m).find? (fun a => idf a == k) = (l.find? (fun a => idf a == k)).map m := by
  intro l
  induction l with
  | nil => rfl
  | cons a t ih =>
    simp only [List.map_cons]
    by_cases h : idf a = k
    · rw [List.find?_cons_of_pos _ (by simp [hm, h]),
        List.find?_cons_of_pos _ (by simp [h])]
      rfl
    · rw [List.find?_cons_of_neg _ (by simp [hm, h]),
        List.find?_cons_of_neg _ (by simp [h]), ih]

/-- `saveOrder` leaves the products untouched. -/
theorem saveOrder_products (s : State) (o : Order) :
    (saveOrder s o).products = s.products := rfl

/-- the totals hook never changes the document id. -/
theorem applyTotalsHook_id (o : Order) : (applyTotalsHook o).id = o.id := by
  unfold applyTotalsHook
  by_cases h : o.items.isEmpty <;> simp [h]

/-- the totals hook never changes the owning customer. -/
theorem applyTotalsHook_customer (o : Order) :
    (applyTotalsHook o).customer = o.customer := by
  unfold applyTotalsHook
  by_cases h : o.items.isEmpty <;> simp [h]

/-- the totals hook never changes the item list. -/
theorem applyTotalsHook_items (o : Order) : (applyTotalsHook o).items = o.items := by
  unfold applyTotalsHook
  by_cases h : o.items.isEmpty <;> simp [h]

/-- the totals hook never changes the status. -/
theorem applyTotalsHook_status (o : Order) : (applyTotalsHook o).status = o.status := by
  unfold applyTotalsHook
  by_cases h : o.items.isEmpty <;> simp [h]

/-- the totals hook never changes the tax. -/
theorem applyTotalsHook_tax (o : Order) : (applyTotalsHook o).tax = o.tax := by
  unfold applyTotalsHook
  by_cases h : o.items.isEmpty <;> simp [h]

/-- the totals hook never changes the shipping cost. -/
theorem applyTotalsHook_shippingCost (o : Order) :
    (applyTotalsHook o).shippingCost = o.shippingCost := by
  unfold applyTotalsHook
  by_cases h : o.items.isEmpty <;> simp [h]

/-- the totals hook never changes the delivery agent. -/
theorem applyTotalsHook_deliveryAgent (o : Order) :
    (applyTotalsHook o).deliveryAgent = o.deliveryAgent := by
  unfold applyTotalsHook
  by_cases h : o.items.isEmpty <;> simp [h]

/-- looking an order up in a `saveOrder` result: the saved order replaces
the stored one of the same id, every other id is untouched. -/
theorem findOrder_saveOrder (s : State) (o : Order) (oid : OrderId) :
    findOrder (saveOrder s o) oid =
      (findOrder s oid).map
        (fun q => if q.id == (applyTotalsHook o).id then applyTotalsHook o else q) := by
  unfold findOrder saveOrder
  exact find?_map_idkeep Order.id _
    (by
      intro a
      by_cases h : a.id = (applyTotalsHook o).id <;> simp [h]) oid s.orders

/-- the decrement loop never touches the order collection. -/
theorem applyOrderDecrements_orders (req : List ReqItem) :
    ∀ s : State, (applyOrderDecrements s req).orders = s.orders := by
  induction req with
  | nil => intro s; rfl
  | cons it rest ih => intro s; rw [applyOrderDecrements, ih]

/-- the decrement loop never touches the user collection. -/
theorem applyOrderDecrements_users (req : List ReqItem) :
    ∀ s : State, (applyOrderDecrements s req).users = s.users := by
  induction req with
  | nil => intro s; rfl
  | cons it rest ih => intro s; rw [applyOrderDecrements, ih]

/-- the restore loop never touches the order collection. -/
theorem applyCancelRestores_orders (items : List OrderItem) :
    ∀ s : State, (applyCancelRestores s items).orders = s.orders := by
  induction items with
  | nil => intro s; rfl
  | cons it rest ih => intro s; rw [applyCancelRestores, ih]

/-- closed form of the decrement loop: every product loses the total
requested quantity of its id from `stock` and gains it in `sales`. -/
theorem applyOrderDecrements_products (req : List ReqItem) :
    ∀ s : State, (applyOrderDecrements s req).products
      = s.products.map (fun p =>
          { p with stock := p.stock - reqQty req p.id,
                   sales := p.sales + reqQty req p.id }) := by
  induction req with
  | nil =>
    intro s
    show s.products = _
    simp only [reqQty, sub_zero, add_zero]
    exact (List.map_id s.products).symm
  | cons it rest ih =>
    intro s
    rw [applyOrderDecrements, ih, List.map_map]
    congr 1
    funext p
    by_cases h : p.id = it.product
    · have hb : (p.id == it.product) = true := by simp [h]
      have h2 : (it.product = p.id) = True := eq_true h.symm
      simp only [Function.comp, hb, if_true, orderDecStep, reqQty, h2]
      simp only [Product.mk.injEq, true_and, and_true]
      constructor <;> omega
    · have h2 : (it.product = p.id) = False := eq_false (fun hh => h hh.symm)
      simp only [Function.comp, beq_iff_eq, h, if_false, reqQty, h2, zero_add]

/-- closed form of the restore loop. -/
theorem applyCancelRestores_products (items : List OrderItem) :
    ∀ s : State, (applyCancelRestores s items).products
      = s.products.map (fun p =>
          { p with stock := p.stock + itemQty items p.id,
                   sales := p.sales - itemQty items p.id }) := by
  induction items with
  | nil =>
    intro s
    show s.products = _
    simp only [itemQty, sub_zero, add_zero]
    exact (List.map_id s.products).symm
  | cons it rest ih =>
    intro s
    rw [applyCancelRestores, ih, List.map_map]
    congr 1
    funext p
    by_cases h : p.id = it.product
    · have hb : (p.id == it.product) = true := by simp [h]
      have h2 : (it.product = p.id) = True := eq_true h.symm
      simp only [Function.comp, hb, if_true, cancelRestoreStep, itemQty, h2]
      simp only [Product.mk.injEq, true_and, and_true]
      constructor <;> omega
    · have h2 : (it.product = p.id) = False := eq_false (fun hh => h hh.symm)
      simp only [Function.comp, beq_iff_eq, h, if_false, itemQty, h2, zero_add]

/-- the status write keeps the document id. -/
theorem statusWriteDoc_id (u : User) (o : Order) (t : OrderStatus) :
    (statusWriteDoc u o t).id = o.id := by
  unfold statusWriteDoc
  by_cases h : (t == .shipped && u.role == .delivery) = true <;> simp [h]

/-- the status write sets exactly the requested status. -/
theorem statusWriteDoc_status (u : User) (o : Order) (t : OrderStatus) :
    (statusWriteDoc u o t).status = t := by
  unfold statusWriteDoc
  by_cases h : (t == .shipped && u.role == .delivery) = true <;> simp [h]

/-- the status write keeps the item list. -/
theorem statusWriteDoc_items (u : User) (o : Order) (t : OrderStatus) :
    (statusWriteDoc u o t).items = o.items := by
  unfold statusWriteDoc
  by_cases h : (t == .shipped && u.role == .delivery) = true <;> simp [h]

/-- when every guard of the status route passes, the handler saves the
status-write document. -/
theorem updateOrderStatus_ok (s : State) (u : User) (oid : OrderId)
    (t : OrderStatus) (o : Order)
    (h1 : canManageOrders u.role = true) (hfind : findOrder s oid = some o)
    (hg : orderAccessGranted s u o = true)
    (hs : (u.role == Role.seller && !sellerTargetAllowed t) = false)
    (hd : (u.role == Role.delivery && !deliveryTargetAllowed t) = false) :
    updateOrderStatus s u oid t = .ok (saveOrder s (statusWriteDoc u o t)) := by
  unfold updateOrderStatus checkOrderAccess
  simp [h1, hfind, hg, hs, hd]

/-- when the delivery-route guards pass, the handler saves the order with
the requested status. -/
theorem deliveryUpdateStatus_ok (s : State) (u : User) (oid : OrderId)
    (t : OrderStatus) (o : Order)
    (hrd : u.role = Role.delivery) (ht : deliveryTargetAllowed t = true)
    (hfound : s.orders.find? (fun q => q.id == oid && q.deliveryAgent == some u.id) = some o) :
    deliveryUpdateStatus s u oid t = .ok (saveOrder s { o with status := t }) := by
  simp [deliveryUpdateStatus, hrd, ht, hfound]

/-- a target allowed by the per-role table makes both role guards of the
status route pass. -/
theorem guards_of_codeAllowed (r : Role) (t : OrderStatus)
    (h : codeTargetAllowed r t = true) :
    (r == Role.seller && !sellerTargetAllowed t) = false ∧
    (r == Role.delivery && !deliveryTargetAllowed t) = false := by
  cases r <;> simp [codeTargetAllowed] at h ⊢ <;> simp [h]

/-! ### C1 -/

/-- C1 counterexample: the §4.3 table forbids a seller moving an order
from `confirmed` back to `pending` (seller: `pending → confirmed` only,
"not the reverse"), yet the code accepts exactly that request and
persists `pending`: the route restricts only the requested target status
(seller targets `['pending','confirmed']`) and never reads the order's
current status. -/
theorem c1_counterexample :
    specAllowedTransition Role.seller OrderStatus.confirmed OrderStatus.pending = false ∧
    (findOrder confirmedState 100).map Order.status = some OrderStatus.confirmed ∧
    resultOrderStatus (updateOrderStatus confirmedState demoSeller 100 OrderStatus.pending) 100
      = some OrderStatus.pending := by
  refine ⟨rfl, rfl, rfl⟩

/-- C1 amended: the status route's role restriction is a function of the
requested target alone (`codeTargetAllowed`): seller may set `pending` or
`confirmed`, delivery may set `confirmed`, `shipped` or `delivered`,
admin anything, from any current status whatsoever; a caller failing
`canManageOrders`, failing order access, or requesting a target outside
their allow-list is rejected (`forbidden`, the handler performing no
write — it is a pure error result), and an allowed target is persisted
verbatim.  Likewise PATCH /api/delivery/orders/:id/status lets the
assigned agent set any of `confirmed`/`shipped`/`delivered` regardless of
the current status. -/
theorem c1_status_target_only (s : State) (u : User) (oid : OrderId) (t : OrderStatus) :
    (canManageOrders u.role = false → updateOrderStatus s u oid t = .error .forbidden) ∧
    (canManageOrders u.role = true → findOrder s oid = none →
        updateOrderStatus s u oid t = .error .notFound) ∧
    (∀ o, canManageOrders u.role = true → findOrder s oid = some o →
        orderAccessGranted s u o = false →
        updateOrderStatus s u oid t = .error .forbidden) ∧
    (∀ o, canManageOrders u.role = true → findOrder s oid = some o →
        orderAccessGranted s u o = true → codeTargetAllowed u.role t = false →
        updateOrderStatus s u oid t = .error .forbidden) ∧
    (∀ o, canManageOrders u.role = true → findOrder s oid = some o →
        orderAccessGranted s u o = true → codeTargetAllowed u.role t = true →
        resultOrderStatus (updateOrderStatus s u oid t) oid = some t) ∧
    (∀ o, u.role = .delivery → deliveryTargetAllowed t = true →
        s.orders.find? (fun q => q.id == oid && q.deliveryAgent == some u.id) = some o →
        findOrder s oid = some o →
        resultOrderStatus (deliveryUpdateStatus s u oid t) oid = some t) := by
  refine ⟨?_, ?_, ?_, ?_, ?_, ?_⟩
  · intro h
    simp [updateOrderStatus, h]
  · intro h1 h2
    simp [updateOrderStatus, checkOrderAccess, h1, h2]
  · intro o h1 h2 hg
    simp [updateOrderStatus, checkOrderAccess, h1, h2, hg]
  · intro o h1 h2 hg hca
    cases hru : u.role with
    | admin => rw [hru] at hca; exact absurd hca (by simp [codeTargetAllowed])
    | customer => rw [hru] at h1; exact absurd h1 (by simp [canManageOrders])
    | seller =>
      rw [hru] at hca
      simp only [codeTargetAllowed] at hca
      simp [updateOrderStatus, checkOrderAccess, h1, h2, hg, hru, hca]
    | delivery =>
      rw [hru] at hca
      simp only [codeTargetAllowed] at hca
      simp [updateOrderStatus, checkOrderAccess, h1, h2, hg, hru, hca]
  · intro o h1 h2 hg hca
    obtain ⟨hs, hd⟩ := guards_of_codeAllowed u.role t hca
    rw [updateOrderStatus_ok s u oid t o h1 h2 hg hs hd]
    simp only [resultOrderStatus, findOrder_saveOrder, h2, Option.map_some]
    simp [applyTotalsHook_id, statusWriteDoc_id, applyTotalsHook_status, statusWriteDoc_status]
  · intro o hrd ht hfound h2
    rw [deliveryUpdateStatus_ok s u oid t o hrd ht hfound]
    simp only [resultOrderStatus, findOrder_saveOrder, h2, Option.map_some]
    rw [applyTotalsHook_id]
    simp [applyTotalsHook_status]

/-- C1 witness: an admin moves the pending demo order straight to
`delivered` (allowed for admin under both the table and the code) and the
new status is persisted. -/
theorem c1_witness :
    resultOrderStatus (updateOrderStatus demoState demoAdmin 100 OrderStatus.delivered) 100
      = some OrderStatus.delivered :=
  (c1_status_target_only demoState demoAdmin 100 OrderStatus.delivered).2.2.2.2.1
    demoOrder rfl rfl rfl rfl

/-- shifting the accumulator out of the totals fold. -/
theorem foldl_totals_shift (l : List OrderItem) :
    ∀ a : ℚ, l.foldl (fun acc it => acc + it.total) a
      = a + l.foldl (fun acc it => acc + it.total) 0 := by
  induction l with
  | nil => intro a; simp
  | cons x xs ih =>
    intro a
    simp only [List.foldl]
    rw [ih (a + x.total), ih (0 + x.total)]
    ring

/-- `sumItemTotals` unfolds one item at a time. -/
theorem sumItemTotals_cons (it : OrderItem) (l : List OrderItem) :
    sumItemTotals (it :: l) = it.total + sumItemTotals l := by
  unfold sumItemTotals
  simp only [List.foldl]
  rw [foldl_totals_shift l (0 + it.total)]
  ring

/-- everything the check loop guarantees on success: the produced items
mirror the request pairwise (same products, same quantities), every
requested item passed the missing/inactive/stock check against the
unchanged store, price and line total are snapshotted from the store, and
the accumulated subtotal is the sum of the line totals. -/
theorem buildOrderItems_ok (s : State) :
    ∀ (req : List ReqItem) (ois : List OrderItem) (sub : ℚ),
      buildOrderItems s req = .ok (ois, sub) →
      ois.map (fun i => (i.product, i.quantity))
          = req.map (fun r => (r.product, r.quantity)) ∧
      (∀ r ∈ req, ∃ p, findProduct s r.product = some p ∧ p.isActive = true ∧
        (r.quantity : ℤ) ≤ p.stock) ∧
      (∀ i ∈ ois, ∃ p, findProduct s i.product = some p ∧ i.price = p.price ∧
        i.total = p.price * (i.quantity : ℚ)) ∧
      sub = sumItemTotals ois := by
  intro req
  induction req with
  | nil =>
    intro ois sub h
    simp only [buildOrderItems, Except.ok.injEq, Prod.mk.injEq] at h
    obtain ⟨ha, hb⟩ := h
    subst ha
    subst hb
    refine ⟨rfl, ?_, ?_, rfl⟩ <;> simp
  | cons r rest ih =>
    intro ois sub h
    cases hp : findProduct s r.product with
    | none =>
      simp only [buildOrderItems, hp] at h
      exact absurd h (by simp)
    | some p =>
      simp only [buildOrderItems, hp] at h
      by_cases ha : p.isActive = true
      · rw [if_neg (by simp [ha])] at h
        by_cases hs : p.stock < (r.quantity : ℤ)
        · rw [if_pos hs] at h
          exact absurd h (by simp)
        · rw [if_neg hs] at h
          cases hb : buildOrderItems s rest with
          | error e =>
            simp only [hb] at h
            exact absurd h (by simp)
          | ok pr =>
            obtain ⟨ois1, sub1⟩ := pr
            simp only [hb, Except.ok.injEq, Prod.mk.injEq] at h
            obtain ⟨hois, hsub⟩ := h
            subst hois
            subst hsub
            obtain ⟨ih1, ih2, ih3, ih4⟩ := ih ois1 sub1 hb
            have hpid : p.id = r.product := by
              have h2 := List.find?_some
                (show s.products.find? (fun q => q.id == r.product) = some p from hp)
              simpa using h2
            refine ⟨?_, ?_, ?_, ?_⟩
            · simp only [List.map_cons, ih1, hpid]
            · intro r2 hr2
              rcases List.mem_cons.mp hr2 with rfl | hr2
              · exact ⟨p, hp, ha, by omega⟩
              · exact ih2 r2 hr2
            · intro i hi
              rcases List.mem_cons.mp hi with rfl | hi
              · refine ⟨p, ?_, rfl, rfl⟩
                show findProduct s p.id = some p
                rw [hpid]
                exact hp
              · exact ih3 i hi
            · rw [sumItemTotals_cons, ← ih4]
      · rw [if_pos (by simp [Bool.not_eq_true] at ha; simp [ha])] at h
        exact absurd h (by simp)

/-- when every requested item passes the missing/inactive/stock check,
the check loop succeeds. -/
theorem buildOrderItems_ok_of_pass (s : State) :
    ∀ req : List ReqItem,
      (∀ r ∈ req, ∃ p, findProduct s r.product = some p ∧ p.isActive = true ∧
        (r.quantity : ℤ) ≤ p.stock) →
      ∃ ois sub, buildOrderItems s req = .ok (ois, sub) := by
  intro req
  induction req with
  | nil => exact fun _ => ⟨[], 0, rfl⟩
  | cons r rest ih =>
    intro hall
    obtain ⟨p, hp, ha, hs⟩ := hall r (List.mem_cons_self r rest)
    obtain ⟨ois, sub, hok⟩ := ih (fun r2 hr2 => hall r2 (List.mem_cons_of_mem r hr2))
    refine ⟨{ product := p.id, quantity := r.quantity, price := p.price, total := p.price * (r.quantity : ℚ) } :: ois, p.price * (r.quantity : ℚ) + sub, ?_⟩
    simp only [buildOrderItems, hp, if_neg (by simp [ha] : ¬((!p.isActive) = true)),
      if_neg (not_lt.mpr hs), hok]

/-- `checkOrderAccess` succeeds exactly on a stored order the caller is
granted. -/
theorem checkOrderAccess_ok_iff (s : State) (u : User) (oid : OrderId) (o : Order) :
    checkOrderAccess s u oid = .ok o ↔
      findOrder s oid = some o ∧ orderAccessGranted s u o = true := by
  constructor
  · intro hh
    unfold checkOrderAccess at hh
    cases hf : findOrder s oid with
    | none =>
      simp only [hf] at hh
      exact absurd hh (by simp)
    | some o1 =>
      simp only [hf] at hh
      by_cases hg : orderAccessGranted s u o1 = true
      · rw [if_pos hg] at hh
        injection hh with hh
        subst hh
        exact ⟨rfl, hg⟩
      · rw [if_neg hg] at hh
        exact absurd hh (by simp)
  · rintro ⟨h1, h2⟩
    unfold checkOrderAccess
    simp [h1, h2]

/-- any success of the status route is a `saveOrder` of a status-write
document of some stored order. -/
theorem updateOrderStatus_ok_shape (s : State) (u : User) (oid : OrderId)
    (t : OrderStatus) (s2 : State) (h : updateOrderStatus s u oid t = .ok s2) :
    ∃ o, findOrder s oid = some o ∧ s2 = saveOrder s (statusWriteDoc u o t) := by
  unfold updateOrderStatus at h
  by_cases h1 : canManageOrders u.role = true
  · rw [if_neg (by simp [h1])] at h
    cases hca : checkOrderAccess s u oid with
    | error e =>
      simp only [hca] at h
      exact absurd h (by simp)
    | ok o =>
      simp only [hca] at h
      by_cases hg1 : (u.role == Role.seller && !sellerTargetAllowed t) = true
      · rw [if_pos hg1] at h
        exact absurd h (by simp)
      · rw [if_neg hg1] at h
        by_cases hg2 : (u.role == Role.delivery && !deliveryTargetAllowed t) = true
        · rw [if_pos hg2] at h
          exact absurd h (by simp)
        · rw [if_neg hg2] at h
          injection h with h2
          exact ⟨o, ((checkOrderAccess_ok_iff s u oid o).mp hca).1, h2.symm⟩
  · rw [if_pos (by simp [Bool.not_eq_true] at h1; simp [h1])] at h
    exact absurd h (by simp)

/-- any success of the cancel route: the order was stored, pending and
granted, and the result is the restore loop over the saved cancellation. -/
theorem cancelOrder_ok_shape (s : State) (u : User) (oid : OrderId) (s2 : State)
    (h : cancelOrder s u oid = .ok s2) :
    ∃ o, findOrder s oid = some o ∧ orderAccessGranted s u o = true ∧
      o.status = .pending ∧
      s2 = applyCancelRestores (saveOrder s { o with status := .cancelled }) o.items := by
  unfold cancelOrder at h
  cases hca : checkOrderAccess s u oid with
  | error e =>
    simp only [hca] at h
    exact absurd h (by simp)
  | ok o =>
    simp only [hca] at h
    obtain ⟨hf, hg⟩ := (checkOrderAccess_ok_iff s u oid o).mp hca
    by_cases hp : o.status = .pending
    · rw [if_neg (by simp [hp])] at h
      injection h with h2
      exact ⟨o, hf, hg, hp, h2.symm⟩
    · rw [if_pos (by simp [hp])] at h
      exact absurd h (by simp)

/-- any success of order creation: the caller was a customer, the request
validated, the check loop succeeded, and the result state is the
decrement loop over the saved new order document. -/
theorem createOrder_ok_shape (s : State) (u : User) (req : List ReqItem)
    (nid : OrderId) (s2 : State) (h : createOrder s u req nid = .ok s2) :
    u.role = .customer ∧ validateItems req = true ∧
    ∃ ois sub, buildOrderItems s req = .ok (ois, sub) ∧
      s2 = applyOrderDecrements (saveNewOrder s (newOrderDoc u ois sub nid)) req := by
  unfold createOrder at h
  by_cases hr : u.role = .customer
  · rw [if_neg (by simp [hr])] at h
    by_cases hv : validateItems req = true
    · rw [if_neg (by simp [hv])] at h
      cases hb : buildOrderItems s req with
      | error e =>
        simp only [hb] at h
        exact absurd h (by simp)
      | ok pr =>
        obtain ⟨ois, sub⟩ := pr
        simp only [hb, Except.ok.injEq] at h
        exact ⟨hr, hv, ois, sub, rfl, h.symm⟩
    · rw [if_pos (by simp [Bool.not_eq_true] at hv; simp [hv])] at h
      exact absurd h (by simp)
  · rw [if_pos (by simp [hr])] at h
    exact absurd h (by simp)

/-- membership in the orders after a `saveOrder`: either an untouched old
document or the hook-processed saved one. -/
theorem mem_saveOrder (s : State) (doc : Order) (o2 : Order)
    (h : o2 ∈ (saveOrder s doc).orders) :
    o2 ∈ s.orders ∨ o2 = applyTotalsHook doc := by
  simp only [saveOrder] at h
  rcases List.mem_map.mp h with ⟨q, hq, hq2⟩
  by_cases hc : (q.id == (applyTotalsHook doc).id) = true
  · right
    rw [← hq2, if_pos hc]
  · left
    rw [← hq2, if_neg hc]
    exact hq

/-- membership in the orders after a `saveNewOrder`. -/
theorem mem_saveNewOrder (s : State) (doc : Order) (o2 : Order)
    (h : o2 ∈ (saveNewOrder s doc).orders) :
    o2 ∈ s.orders ∨ o2 = applyTotalsHook doc := by
  simp only [saveNewOrder] at h
  rcases List.mem_append.mp h with h1 | h1
  · exact Or.inl h1
  · exact Or.inr (by simpa using h1)

/-- the totals hook establishes the financial invariant whenever the item
list is non-empty. -/
theorem orderTotalsInv_hook (o : Order) (h : o.items.isEmpty = false) :
    orderTotalsInv (applyTotalsHook o) = true := by
  simp [applyTotalsHook, h, orderTotalsInv]

/-- a successful creation succeeds only with a non-empty item list. -/
theorem buildOrderItems_ne_nil (s : State) (req : List ReqItem)
    (ois : List OrderItem) (sub : ℚ) (hv : validateItems req = true)
    (hb : buildOrderItems s req = .ok (ois, sub)) :
    ois.isEmpty = false := by
  obtain ⟨hpairs, -, -, -⟩ := buildOrderItems_ok s req ois sub hb
  cases ois with
  | nil =>
    cases req with
    | nil => simp [validateItems] at hv
    | cons r rest => simp at hpairs
  | cons i rest => rfl

/-- locating the freshly created order: when the new id was not yet
present, the created (hook-processed) document is found under it. -/
theorem findOrder_after_create (s : State) (u : User) (req : List ReqItem)
    (nid : OrderId) (s2 : State) (h : createOrder s u req nid = .ok s2)
    (hfresh : findOrder s nid = none) :
    ∃ ois sub, buildOrderItems s req = .ok (ois, sub) ∧ validateItems req = true ∧
      u.role = .customer ∧
      s2 = applyOrderDecrements (saveNewOrder s (newOrderDoc u ois sub nid)) req ∧
      findOrder s2 nid = some (applyTotalsHook (newOrderDoc u ois sub nid)) := by
  obtain ⟨hr, hv, ois, sub, hb, hs2⟩ := createOrder_ok_shape s u req nid s2 h
  refine ⟨ois, sub, hb, hv, hr, hs2, ?_⟩
  subst hs2
  unfold findOrder
  rw [applyOrderDecrements_orders]
  show ((saveNewOrder s (newOrderDoc u ois sub nid)).orders.find? _) = _
  simp only [saveNewOrder]
  rw [List.find?_append,
    show s.orders.find? (fun o => o.id == nid) = none from hfresh]
  simp only [Option.none_or]
  rw [List.find?_cons_of_pos _ (by rw [applyTotalsHook_id]; simp [newOrderDoc])]

/-! ### C5 -/

/-- C5 counterexample: the claim says tax equals `round(S * 0.08, 2)`.
The code computes `subtotal * 0.08` with no rounding: one unit of a
product priced 10.01 yields subtotal 10.01 and a persisted tax of
0.8008, while `round(10.01 * 0.08, 2)` is 0.80 — the two differ. -/
theorem c5_counterexample :
    resultOrderSubtotal (createOrder pennyState demoCustomer [⟨11, 1⟩] 100) 100
      = some (1001 / 100) ∧
    resultOrderTax (createOrder pennyState demoCustomer [⟨11, 1⟩] 100) 100
      = some (1001 / 1250) ∧
    specRound2 ((1001 / 100) * (8 / 100)) = 4 / 5 ∧
    ((1001 / 1250 : ℚ) ≠ 4 / 5) := by
  refine ⟨?_, ?_, ?_, by norm_num⟩
  case _ | _ =>
    norm_num [resultOrderSubtotal, resultOrderTax, createOrder, validateItems,
      buildOrderItems, findProduct, findOrder, pennyState, demoCustomer,
      newOrderDoc, saveNewOrder, applyTotalsHook, sumItemTotals,
      applyOrderDecrements, orderDecStep, List.find?, List.foldl,
      List.isEmpty, List.all]
  unfold specRound2
  rw [show ((1001 : ℚ) / 100 * (8 / 100) * 100 + 1 / 2) = 4029 / 50 by norm_num,
    show (⌊(4029 : ℚ) / 50⌋ : ℤ) = 80 by rw [Int.floor_eq_iff] <;> norm_num]
  norm_num

/-- C5 amended: for every successfully created order, the persisted
subtotal is the sum of the line totals (each snapshotted as
price × quantity), tax is exactly `subtotal * 0.08` — unrounded —,
shipping is 0 when the subtotal exceeds 50 and the 5.99 flat fee
otherwise, and total is their sum; the claim's concrete scenario (2 units
at 30) holds: subtotal 60, tax 4.80, shipping 0, total 64.80, stock 8,
sales 2. -/
theorem c5_totals_formula :
    (∀ (s : State) (u : User) (req : List ReqItem) (nid : OrderId) (s2 : State),
      createOrder s u req nid = .ok s2 → findOrder s nid = none →
      ∃ o, findOrder s2 nid = some o ∧
        o.subtotal = sumItemTotals o.items ∧
        (∀ i ∈ o.items, ∃ p, findProduct s i.product = some p ∧ i.price = p.price ∧
          i.total = p.price * (i.quantity : ℚ)) ∧
        o.tax = o.subtotal * (8 / 100) ∧
        o.shippingCost = (if 50 < o.subtotal then 0 else 599 / 100) ∧
        o.total = o.subtotal + o.tax + o.shippingCost) ∧
    (resultOrderSubtotal (createOrder demoState demoCustomer [⟨10, 2⟩] 200) 200
        = some 60 ∧
     resultOrderTax (createOrder demoState demoCustomer [⟨10, 2⟩] 200) 200
        = some (24 / 5) ∧
     resultOrderShipping (createOrder demoState demoCustomer [⟨10, 2⟩] 200) 200
        = some 0 ∧
     resultOrderTotal (createOrder demoState demoCustomer [⟨10, 2⟩] 200) 200
        = some (324 / 5) ∧
     resultStock (createOrder demoState demoCustomer [⟨10, 2⟩] 200) 10 = some 8 ∧
     resultSales (createOrder demoState demoCustomer [⟨10, 2⟩] 200) 10 = some 2) := by
  constructor
  · intro s u req nid s2 h hfresh
    obtain ⟨ois, sub, hb, hv, hr, hs2, hfind⟩ :=
      findOrder_after_create s u req nid s2 h hfresh
    obtain ⟨hpairs, hchecks, hitems, hsub⟩ := buildOrderItems_ok s req ois sub hb
    have hne : ois.isEmpty = false := buildOrderItems_ne_nil s req ois sub hv hb
    refine ⟨applyTotalsHook (newOrderDoc u ois sub nid), hfind, ?_, ?_, ?_, ?_, ?_⟩
    · simp [applyTotalsHook, newOrderDoc, hne]
    · intro i hi
      have hi2 : i ∈ ois := by
        have h3 : (applyTotalsHook (newOrderDoc u ois sub nid)).items = ois := by
          rw [applyTotalsHook_items]
          simp [newOrderDoc]
        rw [h3] at hi
        exact hi
      exact hitems i hi2
    · simp only [applyTotalsHook, newOrderDoc, hne]
      simp [← hsub]
    · simp only [applyTotalsHook, newOrderDoc, hne]
      simp [← hsub]
    · simp [applyTotalsHook, newOrderDoc, hne]
  · refine ⟨?_, ?_, ?_, ?_, ?_, ?_⟩ <;>
      norm_num [resultOrderSubtotal, resultOrderTax, resultOrderShipping,
        resultOrderTotal, resultStock, resultSales, createOrder, validateItems,
        buildOrderItems, findProduct, findOrder, demoState, demoProduct,
        demoCustomer, demoOrder, newOrderDoc, saveNewOrder, applyTotalsHook,
        sumItemTotals, applyOrderDecrements, orderDecStep, List.find?,
        List.foldl, List.isEmpty, List.all,
        show ((100 : Nat) == 200) = false from rfl,
        show ((10 : Nat) == 10) = true from rfl,
        show ((200 : Nat) == 200) = true from rfl]

/-- C5 witness: the penny order (one unit at 10.01) creates an order
whose tax is exactly subtotal × 0.08. -/
theorem c5_witness :
    ∃ o, findOrder (okState (createOrder pennyState demoCustomer [⟨11, 1⟩] 100)
        pennyState) 100 = some o ∧ o.tax = o.subtotal * (8 / 100) := by
  obtain ⟨o, ho, -, -, h4, -, -⟩ :=
    (c5_totals_formula).1 pennyState demoCustomer [⟨11, 1⟩] 100
      (okState (createOrder pennyState demoCustomer [⟨11, 1⟩] 100) pennyState)
      (by rfl) (by rfl)
  exact ⟨o, ho, h4⟩

/-- a product outside a request has zero requested quantity. -/
theorem reqQty_eq_zero (req : List ReqItem) (pid : ProductId)
    (h : pid ∉ req.map ReqItem.product) : reqQty req pid = 0 := by
  induction req with
  | nil => rfl
  | cons r rest ih =>
    simp only [List.map_cons, List.mem_cons] at h
    push_neg at h
    rw [reqQty, if_neg (fun hh => h.1 hh.symm), ih h.2, add_zero]

/-- with pairwise-distinct products, the total requested quantity of a
requested item's product is that item's quantity. -/
theorem reqQty_of_nodup (req : List ReqItem)
    (hnodup : (req.map ReqItem.product).Nodup) :
    ∀ r ∈ req, reqQty req r.product = (r.quantity : ℤ) := by
  induction req with
  | nil => intro r hr; cases hr
  | cons r0 rest ih =>
    intro r hr
    simp only [List.map_cons, List.nodup_cons] at hnodup
    rcases List.mem_cons.mp hr with rfl | hr2
    · rw [reqQty, if_pos rfl,
        reqQty_eq_zero rest r.product hnodup.1, add_zero]
    · have hne : r0.product ≠ r.product := by
        intro hh
        exact hnodup.1 (hh ▸ List.mem_map.mpr ⟨r, hr2, rfl⟩)
      rw [reqQty, if_neg hne, ih hnodup.2 r hr2, zero_add]

/-! ### C2 -/

/-- C2 counterexample: the claim says that when every line item passes
the stock check, each product's stock decreases by the ordered quantity
and stays ≥ 0.  With the same product in two line items, each item is
checked against the same original stock (the check loop re-reads the
unchanged store), both pass, and the decrement loop then applies both:
two items of 3 units against stock 5 create the order and leave stock -1. -/
theorem c2_counterexample :
    (findProduct dupState 10).map Product.stock = some 5 ∧
    isOk (createOrder dupState demoCustomer [⟨10, 3⟩, ⟨10, 3⟩] 100) = true ∧
    resultStock (createOrder dupState demoCustomer [⟨10, 3⟩, ⟨10, 3⟩] 100) 10
      = some (-1) ∧
    resultSales (createOrder dupState demoCustomer [⟨10, 3⟩, ⟨10, 3⟩] 100) 10
      = some 6 := by
  refine ⟨rfl, rfl, rfl, rfl⟩

/-- C2 amended: restricted to requests in which each product appears in
at most one line item, POST /api/orders behaves as claimed — it succeeds
exactly when every requested product exists, is active and has stock ≥
the requested quantity (otherwise it fails before any write, so nothing
is persisted and no counter moves), and on success exactly one order is
appended while each requested product's stock drops by exactly the
requested quantity (staying ≥ 0) and its sales counter rises by the same
amount.  (Without the distinctness restriction the per-item checks all
read the original stock and the combined decrement can drive stock
negative — see the counterexample.) -/
theorem c2_create_stock (s : State) (u : User) (req : List ReqItem)
    (nid : OrderId) (hrole : u.role = .customer) (hval : validateItems req = true)
    (hnodup : (req.map ReqItem.product).Nodup) :
    ((∃ s2, createOrder s u req nid = .ok s2) ↔
      ∀ r ∈ req, ∃ p, findProduct s r.product = some p ∧ p.isActive = true ∧
        (r.quantity : ℤ) ≤ p.stock) ∧
    (∀ s2, createOrder s u req nid = .ok s2 →
      s2.orders.length = s.orders.length + 1 ∧
      ∀ r ∈ req, ∀ p, findProduct s r.product = some p →
        findProduct s2 r.product
          = some { p with stock := p.stock - (r.quantity : ℤ),
                          sales := p.sales + (r.quantity : ℤ) } ∧
        0 ≤ p.stock - (r.quantity : ℤ)) := by
  constructor
  · constructor
    · rintro ⟨s2, h⟩
      obtain ⟨-, -, ois, sub, hb, -⟩ := createOrder_ok_shape s u req nid s2 h
      exact (buildOrderItems_ok s req ois sub hb).2.1
    · intro hpass
      obtain ⟨ois, sub, hb⟩ := buildOrderItems_ok_of_pass s req hpass
      refine ⟨applyOrderDecrements (saveNewOrder s (newOrderDoc u ois sub nid)) req, ?_⟩
      unfold createOrder
      rw [if_neg (by simp [hrole]), if_neg (by simp [hval])]
      simp only [hb]
  · intro s2 h
    obtain ⟨-, -, ois, sub, hb, hs2⟩ := createOrder_ok_shape s u req nid s2 h
    obtain ⟨-, hchecks, -, -⟩ := buildOrderItems_ok s req ois sub hb
    subst hs2
    constructor
    · show (applyOrderDecrements (saveNewOrder s (newOrderDoc u ois sub nid)) req).orders.length = _
      rw [applyOrderDecrements_orders]
      simp [saveNewOrder]
    · intro r hr p hp
      have hq0 : reqQty req r.product = (r.quantity : ℤ) := reqQty_of_nodup req hnodup r hr
      have hpid : p.id = r.product := by
        have h2 := List.find?_some
          (show s.products.find? (fun q => q.id == r.product) = some p from hp)
        simpa using h2
      constructor
      · show findProduct (applyOrderDecrements (saveNewOrder s (newOrderDoc u ois sub nid)) req) r.product = _
        unfold findProduct
        rw [applyOrderDecrements_products,
          show (saveNewOrder s (newOrderDoc u ois sub nid)).products = s.products from rfl,
          find?_map_idkeep Product.id
            (fun p => { p with stock := p.stock - reqQty req p.id,
                               sales := p.sales + reqQty req p.id })
            (fun a => rfl) r.product s.products,
          show s.products.find? (fun q => q.id == r.product) = some p from hp]
        simp only [Option.map_some']
        rw [hpid, hq0]
      · obtain ⟨p2, hp2, -, hle⟩ := hchecks r hr
        rw [hp] at hp2
        injection hp2 with hp2
        subst hp2
        exact by omega

/-- C2 witness: the claim's happy path — 2 units of the 30-priced,
stock-10 demo product — leaves the product at stock 8, sales 2. -/
theorem c2_witness :
    findProduct (okState (createOrder demoState demoCustomer [⟨10, 2⟩] 200) demoState) 10
      = some { demoProduct with stock := 8, sales := 2 } := by
  have h := ((c2_create_stock demoState demoCustomer [⟨10, 2⟩] 200 rfl (by decide)
      (by decide)).2
    (okState (createOrder demoState demoCustomer [⟨10, 2⟩] 200) demoState) (by rfl)).2
    ⟨10, 2⟩ (by decide) demoProduct (by decide)
  exact h.1

/-! ### C6 -/

/-- C6 counterexample: the claim says no operation can set the financial
fields inconsistently with the items.  But PUT /api/orders/:id persists
`req.body` through `findByIdAndUpdate`, which bypasses the pre-save
totals hook: an admin PUT of `{subtotal: 999}` on the demo order (whose
single line total is 30) persists subtotal 999 and leaves the stored
order violating `subtotal = Σ line totals`. -/
theorem c6_counterexample :
    orderTotalsInv demoOrder = true ∧
    resultOrderSubtotal (adminUpdateOrder demoState demoAdmin 100 badPatch) 100
      = some 999 ∧
    resultOrderTotalsInv (adminUpdateOrder demoState demoAdmin 100 badPatch) 100
      = some false := by
  refine ⟨?_, rfl, ?_⟩
  · norm_num [orderTotalsInv, demoOrder, sumItemTotals, List.foldl]
  · show (findOrder (okState (adminUpdateOrder demoState demoAdmin 100 badPatch)
        demoState) 100).map orderTotalsInv = some false
    rw [show findOrder (okState (adminUpdateOrder demoState demoAdmin 100 badPatch)
        demoState) 100 = some (applyPatch badPatch demoOrder) from rfl]
    norm_num [orderTotalsInv, applyPatch, badPatch, demoOrder, sumItemTotals,
      List.foldl]

/-- C6 amended: every operation that persists an order through
`order.save()` — status update, cancellation, creation — yields only
orders that were already stored, have no items, or satisfy
`subtotal = Σ line totals ∧ total = subtotal + tax + shippingCost`,
because the pre-save hook recomputes both; the admin PUT alone writes
documents directly, bypassing the hook, and can persist inconsistent
financial fields (see the counterexample). -/
theorem c6_save_paths_keep_totals :
    (∀ o : Order, o.items.isEmpty = false → orderTotalsInv (applyTotalsHook o) = true) ∧
    (∀ (s : State) (u : User) (oid : OrderId) (t : OrderStatus) (s2 : State),
      updateOrderStatus s u oid t = .ok s2 →
      ∀ o2 ∈ s2.orders, o2 ∈ s.orders ∨ o2.items.isEmpty = true ∨
        orderTotalsInv o2 = true) ∧
    (∀ (s : State) (u : User) (oid : OrderId) (s2 : State),
      cancelOrder s u oid = .ok s2 →
      ∀ o2 ∈ s2.orders, o2 ∈ s.orders ∨ o2.items.isEmpty = true ∨
        orderTotalsInv o2 = true) ∧
    (∀ (s : State) (u : User) (req : List ReqItem) (nid : OrderId) (s2 : State),
      createOrder s u req nid = .ok s2 →
      ∀ o2 ∈ s2.orders, o2 ∈ s.orders ∨ orderTotalsInv o2 = true) := by
  refine ⟨orderTotalsInv_hook, ?_, ?_, ?_⟩
  · intro s u oid t s2 h o2 hmem
    obtain ⟨o, -, hs2⟩ := updateOrderStatus_ok_shape s u oid t s2 h
    subst hs2
    rcases mem_saveOrder s (statusWriteDoc u o t) o2 hmem with h1 | h1
    · exact Or.inl h1
    · subst h1
      by_cases hi : (statusWriteDoc u o t).items.isEmpty = true
      · exact Or.inr (Or.inl (by rw [applyTotalsHook_items]; exact hi))
      · exact Or.inr (Or.inr (orderTotalsInv_hook _ (by simpa using hi)))
  · intro s u oid s2 h o2 hmem
    obtain ⟨o, -, -, -, hs2⟩ := cancelOrder_ok_shape s u oid s2 h
    subst hs2
    rw [show (applyCancelRestores (saveOrder s { o with status := OrderStatus.cancelled })
        o.items).orders = (saveOrder s { o with status := OrderStatus.cancelled }).orders
      from applyCancelRestores_orders o.items _] at hmem
    rcases mem_saveOrder s { o with status := OrderStatus.cancelled } o2 hmem with h1 | h1
    · exact Or.inl h1
    · subst h1
      by_cases hi : ({ o with status := OrderStatus.cancelled } : Order).items.isEmpty = true
      · exact Or.inr (Or.inl (by rw [applyTotalsHook_items]; exact hi))
      · exact Or.inr (Or.inr (orderTotalsInv_hook _ (by simpa using hi)))
  · intro s u req nid s2 h o2 hmem
    obtain ⟨hr, hv, ois, sub, hb, hs2⟩ := createOrder_ok_shape s u req nid s2 h
    subst hs2
    rw [show (applyOrderDecrements (saveNewOrder s (newOrderDoc u ois sub nid)) req).orders
        = (saveNewOrder s (newOrderDoc u ois sub nid)).orders
      from applyOrderDecrements_orders req _] at hmem
    rcases mem_saveNewOrder s (newOrderDoc u ois sub nid) o2 hmem with h1 | h1
    · exact Or.inl h1
    · subst h1
      refine Or.inr (orderTotalsInv_hook _ ?_)
      show (newOrderDoc u ois sub nid).items.isEmpty = false
      have hne := buildOrderItems_ne_nil s req ois sub hv hb
      simpa [newOrderDoc] using hne

/-- C6 witness: the hook run on the demo order (non-empty items)
establishes the financial invariant. -/
theorem c6_witness : orderTotalsInv (applyTotalsHook demoOrder) = true :=
  (c6_save_paths_keep_totals).1 demoOrder rfl

/-- items built by the check loop carry the same per-product quantities
as the request. -/
theorem itemQty_eq_reqQty (ois : List OrderItem) (req : List ReqItem)
    (hpairs : ois.map (fun i => (i.product, i.quantity))
      = req.map (fun r => (r.product, r.quantity))) :
    ∀ pid, itemQty ois pid = reqQty req pid := by
  induction ois generalizing req with
  | nil =>
    cases req with
    | nil => intro pid; rfl
    | cons r rest => simp at hpairs
  | cons i rest ih =>
    cases req with
    | nil => simp at hpairs
    | cons r rreq =>
      simp only [List.map_cons, List.cons.injEq, Prod.mk.injEq] at hpairs
      obtain ⟨⟨h1, h2⟩, h3⟩ := hpairs
      intro pid
      rw [itemQty, reqQty, h1, h2, ih rreq h3 pid]

/-- the full effect of a granted cancellation of a pending order: the
handler returns the restored state, the order is persisted `cancelled`,
and every product gains back the order's total quantity of its id in
stock while losing it in sales. -/
theorem cancelOrder_pending_effect (s : State) (u : User) (oid : OrderId)
    (o : Order) (hca : checkOrderAccess s u oid = .ok o)
    (hp : o.status = .pending) :
    cancelOrder s u oid
      = .ok (applyCancelRestores (saveOrder s { o with status := .cancelled }) o.items) ∧
    (findOrder (applyCancelRestores (saveOrder s { o with status := .cancelled })
        o.items) oid).map Order.status = some .cancelled ∧
    (∀ pid p, findProduct s pid = some p →
      findProduct (applyCancelRestores (saveOrder s { o with status := .cancelled })
          o.items) pid
        = some { p with stock := p.stock + itemQty o.items pid,
                        sales := p.sales - itemQty o.items pid }) := by
  obtain ⟨hf, hg⟩ := (checkOrderAccess_ok_iff s u oid o).mp hca
  refine ⟨?_, ?_, ?_⟩
  · unfold cancelOrder
    simp only [hca]
    rw [if_neg (by simp [hp])]
  · have h2 : findOrder (applyCancelRestores
        (saveOrder s { o with status := OrderStatus.cancelled }) o.items) oid
        = findOrder (saveOrder s { o with status := OrderStatus.cancelled }) oid := by
      unfold findOrder
      rw [applyCancelRestores_orders]
    rw [h2, findOrder_saveOrder, hf]
    simp only [Option.map_some']
    rw [applyTotalsHook_id]
    simp [applyTotalsHook_status]
  · intro pid p hfp
    have hpid : p.id = pid := by
      have h2 := List.find?_some
        (show s.products.find? (fun q => q.id == pid) = some p from hfp)
      simpa using h2
    show findProduct _ pid = _
    unfold findProduct
    rw [applyCancelRestores_products, saveOrder_products,
      find?_map_idkeep Product.id
        (fun p => { p with stock := p.stock + itemQty o.items p.id,
                           sales := p.sales - itemQty o.items p.id })
        (fun a => rfl) pid s.products,
      show s.products.find? (fun q => q.id == pid) = some p from hfp]
    simp only [Option.map_some']
    rw [hpid]

/-! ### C3 -/

/-- C3: cancelling a pending order (through whatever caller
`checkOrderAccess` grants) persists `cancelled` and, for each product,
adds the order's total quantity of that product back to stock and
subtracts it from sales — exactly reversing the creation deltas, so that
a create-then-cancel round-trip restores the product collection
verbatim; cancelling an order in any other status (including an already
cancelled one) is rejected with the pending-only 400 error, the handler
returning before any write. -/
theorem c3_cancel_roundtrip :
    (∀ (s : State) (u : User) (oid : OrderId) (o : Order),
      checkOrderAccess s u oid = .ok o → o.status = .pending →
      ∃ s2, cancelOrder s u oid = .ok s2 ∧
        (findOrder s2 oid).map Order.status = some .cancelled ∧
        ∀ pid p, findProduct s pid = some p →
          findProduct s2 pid
            = some { p with stock := p.stock + itemQty o.items pid,
                            sales := p.sales - itemQty o.items pid }) ∧
    (∀ (s : State) (u : User) (oid : OrderId) (o : Order),
      checkOrderAccess s u oid = .ok o → o.status ≠ .pending →
      cancelOrder s u oid = .error .onlyPendingCancellable) ∧
    (∀ (s : State) (u : User) (req : List ReqItem) (nid : OrderId) (s1 : State),
      createOrder s u req nid = .ok s1 → findOrder s nid = none →
      ∃ s2, cancelOrder s1 u nid = .ok s2 ∧ s2.products = s.products ∧
        (findOrder s2 nid).map Order.status = some .cancelled) := by
  refine ⟨?_, ?_, ?_⟩
  · intro s u oid o hca hp
    obtain ⟨h1, h2, h3⟩ := cancelOrder_pending_effect s u oid o hca hp
    exact ⟨_, h1, h2, h3⟩
  · intro s u oid o hca hnp
    unfold cancelOrder
    simp only [hca]
    rw [if_pos (by simp [hnp])]
  · intro s u req nid s1 h hfresh
    obtain ⟨ois, sub, hb, hv, hr, hs1, hfind1⟩ :=
      findOrder_after_create s u req nid s1 h hfresh
    obtain ⟨hpairs, -, -, -⟩ := buildOrderItems_ok s req ois sub hb
    have hitems : (applyTotalsHook (newOrderDoc u ois sub nid)).items = ois := by
      rw [applyTotalsHook_items]
      simp [newOrderDoc]
    have hca : checkOrderAccess s1 u nid
        = .ok (applyTotalsHook (newOrderDoc u ois sub nid)) := by
      apply (checkOrderAccess_ok_iff s1 u nid _).mpr
      refine ⟨hfind1, ?_⟩
      have hcust : (applyTotalsHook (newOrderDoc u ois sub nid)).customer = u.id := by
        rw [applyTotalsHook_customer]
        simp [newOrderDoc]
      simp [orderAccessGranted, hr, hcust]
    have hpend : (applyTotalsHook (newOrderDoc u ois sub nid)).status = .pending := by
      rw [applyTotalsHook_status]
      simp [newOrderDoc]
    obtain ⟨hcanc, hstat, -⟩ :=
      cancelOrder_pending_effect s1 u nid _ hca hpend
    refine ⟨_, hcanc, ?_, hstat⟩
    subst hs1
    rw [applyCancelRestores_products, saveOrder_products,
      applyOrderDecrements_products,
      show (saveNewOrder s (newOrderDoc u ois sub nid)).products = s.products from rfl,
      List.map_map]
    conv_rhs => rw [← List.map_id s.products]
    congr 1
    funext p
    simp only [Function.comp_apply, id_eq, hitems]
    simp only [itemQty_eq_reqQty ois req hpairs]
    obtain ⟨pid, pseller, pprice, pstock, psales, pact⟩ := p
    simp only [Product.mk.injEq, true_and, and_true]
    constructor <;> omega

/-- C3 witness: creating the demo order (2 units of product 10) under a
fresh id and cancelling it restores the product collection exactly, and
the order ends `cancelled`. -/
theorem c3_witness :
    ∃ s2, cancelOrder (okState (createOrder demoState demoCustomer [⟨10, 2⟩] 200)
        demoState) demoCustomer 200 = .ok s2 ∧
      s2.products = demoState.products ∧
      (findOrder s2 200).map Order.status = some OrderStatus.cancelled :=
  (c3_cancel_roundtrip).2.2 demoState demoCustomer [⟨10, 2⟩] 200
    (okState (createOrder demoState demoCustomer [⟨10, 2⟩] 200) demoState)
    (by rfl) (by rfl)

/-! ### C4 -/

/-- C4 counterexample: the claim allows cancellation only to the owning
customer or an admin and says in particular a seller owning a product in
the order is rejected.  But DELETE /api/orders/:id guards only with
`checkOrderAccess`, which also grants sellers with a product in the
order: seller 2 (not the owner — the order belongs to customer 3)
successfully cancels the pending demo order. -/
theorem c4_counterexample :
    demoSeller.role = Role.seller ∧
    demoOrder.customer ≠ demoSeller.id ∧
    (findOrder demoState 100).map Order.status = some OrderStatus.pending ∧
    resultOrderStatus (cancelOrder demoState demoSeller 100) 100
      = some OrderStatus.cancelled := by
  refine ⟨rfl, by decide, rfl, rfl⟩

/-- C4 amended: cancellation of a pending order succeeds for exactly the
callers `checkOrderAccess` grants — the owning customer, an admin, a
seller with at least one product in the order, or the assigned delivery
agent; every caller outside that set is rejected with `forbidden` (the
handler returns the error before any write, so the order and the
products are untouched). -/
theorem c4_cancel_access (s : State) (u : User) (oid : OrderId) (o : Order)
    (hfind : findOrder s oid = some o) (hpend : o.status = .pending) :
    (orderAccessGranted s u o = true → isOk (cancelOrder s u oid) = true) ∧
    (orderAccessGranted s u o = false → cancelOrder s u oid = .error .forbidden) := by
  constructor
  · intro hg
    simp [cancelOrder, checkOrderAccess, hfind, hg, hpend, isOk]
  · intro hg
    simp [cancelOrder, checkOrderAccess, hfind, hg]

/-- C4 witness: the non-owning seller's cancellation of the pending demo
order goes through, and the non-owning other customer is rejected. -/
theorem c4_witness :
    isOk (cancelOrder demoState demoSeller 100) = true ∧
    cancelOrder demoState demoOtherCustomer 100 = .error .forbidden :=
  ⟨(c4_cancel_access demoState demoSeller 100 demoOrder rfl rfl).1 (by decide),
   (c4_cancel_access demoState demoOtherCustomer 100 demoOrder rfl rfl).2 (by decide)⟩

/-! ### C10 -/

/-- C10: for every quantity `q ≥ 1`, `Product.updateSales q` adds `q` to
the sales counter and sets the stock to `max 0 (stock - q)`, so the stock
stays non-negative on this path even when `q` exceeds it (the
over-decrement is clamped); by contrast the per-product update of the
order-creation loop (`orderDecStep`) subtracts `q` unguarded, and drops
the stock below zero whenever `q` exceeds it. -/
theorem c10_updateSales_clamps (p : Product) (q : Nat) (hq : 1 ≤ q) :
    (p.updateSales q).sales = p.sales + q ∧
    (p.updateSales q).stock = max 0 (p.stock - q) ∧
    0 ≤ (p.updateSales q).stock ∧
    (orderDecStep p q).stock = p.stock - q ∧
    (p.stock < q → (p.updateSales q).stock = 0 ∧ (orderDecStep p q).stock < 0) := by
  have _ := hq
  refine ⟨rfl, rfl, le_max_left 0 _, rfl, fun h => ⟨?_, ?_⟩⟩
  · simp only [Product.updateSales]
    omega
  · simp only [orderDecStep]
    omega

/-- C10 witness: selling 7 units of a 5-stock product clamps the stock to
0 via `updateSales`, while the order-creation decrement would leave -2. -/
theorem c10_witness :
    (Product.updateSales ⟨10, 2, 30, 5, 0, true⟩ 7).stock = 0 ∧
    (orderDecStep ⟨10, 2, 30, 5, 0, true⟩ 7).stock < 0 :=
  (c10_updateSales_clamps ⟨10, 2, 30, 5, 0, true⟩ 7 (by decide)).2.2.2.2 (by decide)

/-! ### C9 -/

/-- C9: the authorization gate `protect` either resolves exactly one
existing user whose active flag is true — updating that user's last-login
timestamp to the current time and persisting it — or fails with
`unauthorized` (401): a missing header, a token that fails verification,
a decoded id referencing no user, and a deactivated user all yield the
same authentication error. -/
theorem c9_protect_gate (s : State) (now : Nat) :
    (protect none now s = .error .unauthorized) ∧
    (∀ t : Token, t.decoded = none → protect (some t) now s = .error .unauthorized) ∧
    (∀ t uid, t.decoded = some uid → findUser s uid = none →
        protect (some t) now s = .error .unauthorized) ∧
    (∀ t uid u, t.decoded = some uid → findUser s uid = some u → u.isActive = false →
        protect (some t) now s = .error .unauthorized) ∧
    (∀ t uid u, t.decoded = some uid → findUser s uid = some u → u.isActive = true →
        ∃ s2, protect (some t) now s = .ok ({ u with lastLogin := some now }, s2) ∧
          findUser s2 uid = some { u with lastLogin := some now }) := by
  refine ⟨rfl, ?_, ?_, ?_, ?_⟩
  · intro t ht
    simp [protect, ht]
  · intro t uid ht hf
    simp [protect, ht, hf]
  · intro t uid u ht hf hu
    simp [protect, ht, hf, hu]
  · intro t uid u ht hf hu
    have hf2 : s.users.find? (fun v => v.id == uid) = some u := hf
    have hid : u.id = uid := by
      have h2 := List.find?_some hf2
      simpa using h2
    refine ⟨{ s with users := s.users.map (fun v => if v.id == u.id then { u with lastLogin := some now } else v) }, ?_, ?_⟩
    · simp [protect, ht, hf, hu]
    · show (s.users.map (fun v => if v.id == u.id then { u with lastLogin := some now } else v)).find? (fun v => v.id == uid) = _
      rw [find?_map_idkeep User.id _
        (by
          intro a
          by_cases hh : a.id = u.id <;> simp [hh]) uid s.users]
      rw [hf2]
      simp

/-- C9 witness: in the demo store, a token decoding to user 3 succeeds
and stamps the last login. -/
theorem c9_witness :
    ∃ s2, protect (some ⟨some 3⟩) 42 demoState =
        .ok ({ demoCustomer with lastLogin := some 42 }, s2) ∧
      findUser s2 3 = some { demoCustomer with lastLogin := some 42 } :=
  (c9_protect_gate demoState 42).2.2.2.2 ⟨some 3⟩ 3 demoCustomer rfl (by decide) rfl

/-! ### C7 -/

/-- C7 counterexample: the claim says an authenticated caller who may not
see an order gets the same NotFound outcome as when the order is absent.
`checkOrderAccess` refutes this: customer 4 asking for existing order 100
(owned by customer 3) gets `forbidden` (403), while asking for the
absent order 999 gets `notFound` (404) — the two outcomes differ, so
existence is leaked. -/
theorem c7_counterexample :
    checkOrderAccess demoState demoOtherCustomer 100 = .error .forbidden ∧
    checkOrderAccess demoState demoOtherCustomer 999 = .error .notFound ∧
    ApiError.forbidden ≠ ApiError.notFound := by
  refine ⟨rfl, rfl, by decide⟩

/-- C7 amended: only the delivery-scoped order fetch collapses "absent"
and "outside my visibility" into one `notFound`; the
`checkOrderAccess`-gated operations answer `notFound` (404) only for an
absent order and `forbidden` (403) for an existing order outside the
caller's visibility, so those two situations are distinguishable there. -/
theorem c7_visibility_errors (s : State) (u : User) (oid : OrderId) :
    (findOrder s oid = none → checkOrderAccess s u oid = .error .notFound) ∧
    (∀ o, findOrder s oid = some o → orderAccessGranted s u o = false →
        checkOrderAccess s u oid = .error .forbidden) ∧
    (u.role = .delivery →
      s.orders.find? (fun o => o.id == oid && o.deliveryAgent == some u.id) = none →
      deliveryGetOrder s u oid = .error .notFound) := by
  refine ⟨?_, ?_, ?_⟩
  · intro h
    simp [checkOrderAccess, h]
  · intro o h hg
    simp [checkOrderAccess, h, hg]
  · intro hr h
    simp [deliveryGetOrder, hr, h]

/-- C7 witness: the delivery agent 5 gets `notFound` both for the absent
order 999 and for order 100, which exists but is not assigned to them. -/
theorem c7_witness :
    deliveryGetOrder demoState demoAgent 999 = .error .notFound ∧
    deliveryGetOrder demoState demoAgent 100 = .error .notFound :=
  ⟨(c7_visibility_errors demoState demoAgent 999).2.2 rfl (by decide),
   (c7_visibility_errors demoState demoAgent 100).2.2 rfl (by decide)⟩

/-! ### C8 -/

/-- C8: every order returned by the role-scoped listings is in scope —
for a seller (GET /api/orders and GET /api/seller/orders) the order
contains at least one line item whose product is owned by that seller,
and for a customer (GET /api/orders) the order's owning customer is the
caller, regardless of status filter and pagination. -/
theorem c8_listing_scope :
    (∀ (s : State) (u : User) (st : Option OrderStatus) (page limit : Nat) (o : Order),
        u.role = .seller → o ∈ getOrdersPage s u st page limit →
        ∃ it ∈ o.items, ∃ p ∈ s.products, p.id = it.product ∧ p.seller = u.id) ∧
    (∀ (s : State) (u : User) (st : Option OrderStatus) (page limit : Nat) (o : Order),
        u.role = .customer → o ∈ getOrdersPage s u st page limit →
        o.customer = u.id) ∧
    (∀ (s : State) (u : User) (st : Option OrderStatus) (os : List Order) (o : Order),
        getSellerOrders s u st = .ok os → o ∈ os →
        ∃ it ∈ o.items, ∃ p ∈ s.products, p.id = it.product ∧ p.seller = u.id) := by
  refine ⟨?_, ?_, ?_⟩
  · intro s u st page limit o hr hm
    have h1 : o ∈ getOrders s u st :=
      List.mem_of_mem_drop (List.mem_of_mem_take hm)
    rw [getOrders, List.mem_filter] at h1
    have hvis : orderVisibleTo s u o = true := by
      have := h1.2
      simp only [Bool.and_eq_true] at this
      exact this.1.2
    rw [orderVisibleTo, hr] at hvis
    simp only [List.any_eq_true, Bool.and_eq_true, beq_iff_eq] at hvis
    obtain ⟨it, hit, p, hp, hpid, hps⟩ := hvis
    exact ⟨it, hit, p, hp, hpid, hps⟩
  · intro s u st page limit o hr hm
    have h1 : o ∈ getOrders s u st :=
      List.mem_of_mem_drop (List.mem_of_mem_take hm)
    rw [getOrders, List.mem_filter] at h1
    have hvis : orderVisibleTo s u o = true := by
      have := h1.2
      simp only [Bool.and_eq_true] at this
      exact this.1.2
    rw [orderVisibleTo, hr] at hvis
    simpa using hvis
  · intro s u st os o h hm
    rw [getSellerOrders] at h
    split at h
    · exact absurd h (by simp)
    · cases h
      rw [List.mem_filter] at hm
      have hvis := hm.2
      simp only [Bool.and_eq_true] at hvis
      have := hvis.1.2
      simp only [List.any_eq_true, Bool.and_eq_true, beq_iff_eq] at this
      obtain ⟨it, hit, p, hp, hpid, hps⟩ := this
      exact ⟨it, hit, p, hp, hpid, hps⟩

/-- C8 witness: in the demo store, seller 2 receives the demo order via
both listings (it contains product 10, which seller 2 owns), and it
indeed carries such an item. -/
theorem c8_witness :
    (demoOrder ∈ getOrdersPage demoState demoSeller none 1 10 ∧
      ∃ it ∈ demoOrder.items, ∃ p ∈ demoState.products,
        p.id = it.product ∧ p.seller = demoSeller.id) ∧
    (demoOrder ∈ getOrdersPage demoState demoCustomer none 1 10 ∧
      demoOrder.customer = demoCustomer.id) := by
  refine ⟨⟨by decide, ?_⟩, ⟨by decide, ?_⟩⟩
  · exact (c8_listing_scope).1 demoState demoSeller none 1 10 demoOrder rfl (by decide)
  · exact (c8_listing_scope).2.1 demoState demoCustomer none 1 10 demoOrder rfl (by decide)

end Ecommerce
